import Mathlib

/-!
# Verification of the kubeSize aggregation core

A shallow embedding of the aggregation-and-reporting core of the `kubeSize`
repository (`cmd/capacity/cluster.go` and the node-role subcommand), together
with theorems settling the specification claims about it.

Modelling conventions:
* `resource.Quantity` (arbitrary-precision decimal, exact add/sub) is modelled
  by `Rat`, a faithful superset with exact arithmetic.
* Go `int` counters are modelled by `Int` (the counters here are list lengths
  and small sums, far from 64-bit overflow).
* The cluster API is an external collaborator; every query the code issues is
  modelled as an environment-provided result (`Except String _`).  client-go's
  typed `List` calls always return a non-nil (possibly empty) list object next
  to the error, so code that ignores the returned error observes the decoded
  items — the empty list on failure.
* Go maps (node labels, the role set, the per-role record map) iterate in
  unspecified order.  Labels are modelled as an association list, the role set
  as a duplicate-free list in first-insertion order, and the record map as an
  association list with unique keys; determinism under reordering is proved
  explicitly (claim C9) rather than assumed.
-/

set_option linter.unusedVariables false

namespace KubeSize

/-- Models `resource.Quantity`: arbitrary-precision decimal with exact
addition and subtraction. -/
abbrev Quantity := Rat

/-- Models `Quantity.Value()`: the value rounded to the nearest integer away
from zero. -/
def quantityValue (q : Quantity) : Int := if 0 ≤ q then ⌈q⌉ else ⌊q⌋

/-- A node status condition (`corev1.NodeCondition`): the code compares
`condition.Type` against `"Ready"` and `condition.Status` against
`corev1.ConditionTrue`, i.e. the string `"True"`. -/
structure NodeCondition where
  type : String
  status : String
  deriving DecidableEq, Repr

/-- A `corev1.ResourceList` restricted to the three quantities the code
reads: `Pods()`, `Cpu()`, `Memory()` (each returns the zero quantity when the
key is absent, so plain fields are faithful). -/
structure ResourceList where
  pods : Quantity
  cpu : Quantity
  memory : Quantity
  deriving DecidableEq, Repr

/-- The parts of a `corev1.Node` the aggregators read. -/
structure Node where
  name : String
  labels : List (String × String)
  conditions : List NodeCondition
  unschedulable : Bool
  capacity : ResourceList
  allocatable : ResourceList
  deriving DecidableEq, Repr

/-- The parts of a container spec the aggregators read:
`container.Resources.Requests.Cpu()` etc. -/
structure ContainerResources where
  requestsCpu : Quantity
  requestsMemory : Quantity
  limitsCpu : Quantity
  limitsMemory : Quantity
  deriving DecidableEq, Repr

/-- The parts of a `corev1.Pod` the aggregators read. -/
structure Pod where
  nodeName : String
  phase : String
  containers : List ContainerResources
  deriving DecidableEq, Repr

/-- `output.ClusterCapacityData`, the aggregate record both generators
populate.  `new(output.ClusterCapacityData)` zeroes every field, hence the
zero defaults. -/
structure ClusterCapacityData where
  TotalNodeCount : Int := 0
  TotalReadyNodeCount : Int := 0
  TotalUnreadyNodeCount : Int := 0
  TotalUnschedulableNodeCount : Int := 0
  TotalPodCount : Int := 0
  TotalNonTermPodCount : Int := 0
  TotalAvailablePods : Int := 0
  TotalCapacityPods : Quantity := 0
  TotalCapacityCPU : Quantity := 0
  TotalCapacityMemory : Quantity := 0
  TotalAllocatablePods : Quantity := 0
  TotalAllocatableCPU : Quantity := 0
  TotalAllocatableMemory : Quantity := 0
  TotalAvailableCPU : Quantity := 0
  TotalAvailableMemory : Quantity := 0
  TotalRequestsCPU : Quantity := 0
  TotalRequestsMemory : Quantity := 0
  TotalLimitsCPU : Quantity := 0
  TotalLimitsMemory : Quantity := 0
  deriving DecidableEq, Repr

/-- The test `(condition.Type == "Ready") && condition.Status ==
corev1.ConditionTrue` both subcommands run on every status condition. -/
def isReadyTrue (condition : NodeCondition) : Bool :=
  condition.type == "Ready" && condition.status == "True"

/-- Count of status conditions with type `"Ready"` and status `"True"`. -/
def readyConditionCount (conditions : List NodeCondition) : Int :=
  (conditions.countP isReadyTrue : Int)

/-- The body of the condition loop both subcommands use on an existing
record: increment `TotalReadyNodeCount` once per Ready/True condition. -/
def readyCondStep (d : ClusterCapacityData) (condition : NodeCondition) : ClusterCapacityData :=
  if isReadyTrue condition then
    { d with TotalReadyNodeCount := d.TotalReadyNodeCount + 1 }
  else d

/-- One iteration of the node loop of `clusterCmd.RunE`
(`cluster.go` lines 58–74). -/
def accumClusterNode (d : ClusterCapacityData) (node : Node) : ClusterCapacityData :=
  let d := { d with TotalNodeCount := d.TotalNodeCount + 1 }
  let d := node.conditions.foldl readyCondStep d
  let d := if node.unschedulable then
      { d with TotalUnschedulableNodeCount := d.TotalUnschedulableNodeCount + 1 }
    else d
  { d with
    TotalCapacityPods := d.TotalCapacityPods + node.capacity.pods
    TotalCapacityCPU := d.TotalCapacityCPU + node.capacity.cpu
    TotalCapacityMemory := d.TotalCapacityMemory + node.capacity.memory
    TotalAllocatablePods := d.TotalAllocatablePods + node.allocatable.pods
    TotalAllocatableCPU := d.TotalAllocatableCPU + node.allocatable.cpu
    TotalAllocatableMemory := d.TotalAllocatableMemory + node.allocatable.memory }

/-- The body of the container loop of `clusterCmd.RunE`
(`cluster.go` lines 89–94). -/
def containerReqStep (d : ClusterCapacityData) (c : ContainerResources) : ClusterCapacityData :=
  { d with
    TotalRequestsCPU := d.TotalRequestsCPU + c.requestsCpu
    TotalLimitsCPU := d.TotalLimitsCPU + c.limitsCpu
    TotalRequestsMemory := d.TotalRequestsMemory + c.requestsMemory
    TotalLimitsMemory := d.TotalLimitsMemory + c.limitsMemory }

/-- One iteration of the request/limit loop of `clusterCmd.RunE`
(`cluster.go` lines 88–95). -/
def accumPodRequests (d : ClusterCapacityData) (pod : Pod) : ClusterCapacityData :=
  pod.containers.foldl containerReqStep d

/-- The query results the `cluster` subcommand observes from the (external)
cluster API: the node listing, the unfiltered pod listing, and the pod
listing filtered by the constant phase field selector. -/
structure ClusterEnv where
  nodesList : Except String (List Node)
  podsAll : Except String (List Pod)
  podsNonTerm : Except String (List Pod)

/-- The pod items a caller that ignores the returned error observes:
client-go's typed `List` always returns a non-nil (possibly empty) `PodList`,
so a failed query yields the empty item slice. -/
def itemsOf (r : Except String (List Pod)) : List Pod :=
  match r with
  | .ok l => l
  | .error _ => []

/-- `clusterCmd.RunE` (`cluster.go` lines 44–104), after clientset creation.
The node-listing error is wrapped and returned; the two pod-listing errors
are assigned to `err` but never checked (lines 77 and 85), so the code
proceeds with the (empty) decoded list.  The constant field selector
`status.phase!=Succeeded,status.phase!=Failed` always parses, so its checked
error branch is dead. -/
def clusterRunE (env : ClusterEnv) : Except String ClusterCapacityData :=
  match env.nodesList with
  | .error e => .error ("failed to list nodes: " ++ e)
  | .ok nodes =>
    let d : ClusterCapacityData := {}
    let d := nodes.foldl accumClusterNode d
    let d := { d with TotalUnreadyNodeCount := d.TotalNodeCount - d.TotalReadyNodeCount }
    let d := { d with TotalPodCount := ((itemsOf env.podsAll).length : Int) }
    let ntPods := itemsOf env.podsNonTerm
    let d := { d with TotalNonTermPodCount := (ntPods.length : Int) }
    let d := ntPods.foldl accumPodRequests d
    .ok d

/-- A pod whose phase is neither `Succeeded` nor `Failed`; this is the set
selected by the field selector
`status.phase!=Succeeded,status.phase!=Failed`. -/
def nonTerminated (pod : Pod) : Bool :=
  !(pod.phase == "Succeeded") && !(pod.phase == "Failed")

/-- The environment presented by a live cluster holding exactly `nodes` and
`pods`: every query succeeds and the phase-filtered listing returns the
non-terminated subset. -/
def liveClusterEnv (nodes : List Node) (pods : List Pod) : ClusterEnv :=
  { nodesList := .ok nodes
    podsAll := .ok pods
    podsNonTerm := .ok (pods.filter nonTerminated) }

/-- The record the cluster aggregator renders on a live cluster state. -/
def clusterRecord (nodes : List Node) (pods : List Pod) : ClusterCapacityData :=
  match clusterRunE (liveClusterEnv nodes pods) with
  | .ok d => d
  | .error _ => {}

/-! ## Role derivation (node-role subcommand, lines 71–84) -/

/-- Go `strings.HasPrefix(s, p)`, at the level of character lists. -/
def goHasPrefix (s p : String) : Bool := p.data.isPrefixOf s.data

/-- Go `strings.TrimPrefix(s, p)`: drops `p` when it is a prefix, otherwise
returns `s` unchanged. -/
def goTrimPrefix (s p : String) : String :=
  if goHasPrefix s p then ⟨s.data.drop p.data.length⟩ else s

/-- `sets.String` insertion, modelled as a duplicate-free list kept in
first-insertion order. -/
def insertRole (acc : List String) (role : String) : List String :=
  if role ∈ acc then acc else acc ++ [role]

/-- The label-key prefix marking a node role. -/
def rolePrefix : String := "node-role.kubernetes.io/"

/-- The body of the label-scanning switch of `nodeRoleCmd.RunE`
(lines 73–80): a key carrying `rolePrefix` contributes its non-empty suffix;
otherwise the key `kubernetes.io/role` contributes its non-empty value. -/
def roleStep (acc : List String) (kv : String × String) : List String :=
  if goHasPrefix kv.1 rolePrefix then
    if (goTrimPrefix kv.1 rolePrefix).data.length > 0 then
      insertRole acc (goTrimPrefix kv.1 rolePrefix)
    else acc
  else if kv.1 = "kubernetes.io/role" ∧ kv.2 ≠ "" then insertRole acc kv.2
  else acc

/-- The label-scanning loop of `nodeRoleCmd.RunE` (lines 71–81). -/
def rolesOfLabels (labels : List (String × String)) : List String :=
  labels.foldl roleStep []

/-- Lines 82–84: a node with no derived roles is assigned the sentinel role
`<none>`. -/
def rolesFinal (labels : List (String × String)) : List String :=
  let roles := rolesOfLabels labels
  if roles.length = 0 then insertRole roles "<none>" else roles

/-! ## Node-role aggregation (node-role subcommand, lines 86–185) -/

/-- The per-node pod totals computed on lines 90–109: the raw pod count for
the node, the non-terminated pod count, and the container request/limit sums
over the non-terminated set. -/
structure NodePodTotals where
  totalPodCount : Int
  nonTerminatedPodCount : Int
  totalRequestsCPU : Quantity
  totalLimitssCPU : Quantity
  totalRequestsMemory : Quantity
  totalLimitsMemory : Quantity
  deriving DecidableEq, Repr

/-- The body of the per-node container loop (lines 103–108). -/
def containerTotalsStep (s : NodePodTotals) (c : ContainerResources) : NodePodTotals :=
  { s with
    totalRequestsCPU := s.totalRequestsCPU + c.requestsCpu
    totalLimitssCPU := s.totalLimitssCPU + c.limitsCpu
    totalRequestsMemory := s.totalRequestsMemory + c.requestsMemory
    totalLimitsMemory := s.totalLimitsMemory + c.limitsMemory }

/-- Lines 91–109: counts of the two per-node pod listings and the
request/limit sums over the non-terminated listing. -/
def nodePodTotals (nodePods ntPods : List Pod) : NodePodTotals :=
  ntPods.foldl
    (fun s pod => pod.containers.foldl containerTotalsStep s)
    { totalPodCount := (nodePods.length : Int)
      nonTerminatedPodCount := (ntPods.length : Int)
      totalRequestsCPU := 0
      totalLimitssCPU := 0
      totalRequestsMemory := 0
      totalLimitsMemory := 0 }

/-- Lines 112–134: accumulation into an already-present role record. -/
def accumRoleExisting (d : ClusterCapacityData) (node : Node) (t : NodePodTotals) :
    ClusterCapacityData :=
  let d := { d with TotalNodeCount := d.TotalNodeCount + 1 }
  let d := node.conditions.foldl readyCondStep d
  let d := { d with TotalUnreadyNodeCount := d.TotalNodeCount - d.TotalReadyNodeCount }
  let d := if node.unschedulable then
      { d with TotalUnschedulableNodeCount := d.TotalUnschedulableNodeCount + 1 }
    else d
  { d with
    TotalCapacityPods := d.TotalCapacityPods + node.capacity.pods
    TotalCapacityCPU := d.TotalCapacityCPU + node.capacity.cpu
    TotalCapacityMemory := d.TotalCapacityMemory + node.capacity.memory
    TotalAllocatablePods := d.TotalAllocatablePods + node.allocatable.pods
    TotalAllocatableCPU := d.TotalAllocatableCPU + node.allocatable.cpu
    TotalAllocatableMemory := d.TotalAllocatableMemory + node.allocatable.memory
    TotalRequestsCPU := d.TotalRequestsCPU + t.totalRequestsCPU
    TotalLimitsCPU := d.TotalLimitsCPU + t.totalLimitssCPU
    TotalRequestsMemory := d.TotalRequestsMemory + t.totalRequestsMemory
    TotalLimitsMemory := d.TotalLimitsMemory + t.totalLimitsMemory
    TotalPodCount := d.TotalPodCount + t.totalPodCount
    TotalNonTermPodCount := d.TotalNonTermPodCount + t.nonTerminatedPodCount }

/-- Lines 136–160: the freshly created record for a role seen for the first
time.  Note that `TotalReadyNodeCount = 1` and `TotalUnreadyNodeCount = 0`
are assigned (not incremented) once per Ready/True condition, and that
`TotalUnreadyNodeCount` is never assigned when the node has no Ready/True
condition. -/
def freshReadyStep (d : ClusterCapacityData) (condition : NodeCondition) : ClusterCapacityData :=
  if isReadyTrue condition then
    { d with TotalReadyNodeCount := 1, TotalUnreadyNodeCount := 0 }
  else d

/-- Lines 136–160: the freshly created record for a role seen for the first
time (see `freshReadyStep` for its condition loop). -/
def freshRoleRecord (node : Node) (t : NodePodTotals) : ClusterCapacityData :=
  let d : ClusterCapacityData := {}
  let d := { d with TotalNodeCount := 1 }
  let d := node.conditions.foldl freshReadyStep d
  let d := if node.unschedulable then { d with TotalUnschedulableNodeCount := 1 } else d
  { d with
    TotalCapacityPods := d.TotalCapacityPods + node.capacity.pods
    TotalCapacityCPU := d.TotalCapacityCPU + node.capacity.cpu
    TotalCapacityMemory := d.TotalCapacityMemory + node.capacity.memory
    TotalAllocatablePods := d.TotalAllocatablePods + node.allocatable.pods
    TotalAllocatableCPU := d.TotalAllocatableCPU + node.allocatable.cpu
    TotalAllocatableMemory := d.TotalAllocatableMemory + node.allocatable.memory
    TotalRequestsCPU := d.TotalRequestsCPU + t.totalRequestsCPU
    TotalLimitsCPU := d.TotalLimitsCPU + t.totalLimitssCPU
    TotalRequestsMemory := d.TotalRequestsMemory + t.totalRequestsMemory
    TotalLimitsMemory := d.TotalLimitsMemory + t.totalLimitsMemory
    TotalPodCount := d.TotalPodCount + t.totalPodCount
    TotalNonTermPodCount := d.TotalNonTermPodCount + t.nonTerminatedPodCount }

/-- The per-role record map `nodeRoleCapacityData`, modelled as an
association list with unique keys; the key order is the creation order, which
is exactly the order of the separately kept `roleNames` slice. -/
abbrev RoleMap := List (String × ClusterCapacityData)

/-- Go map lookup `nodeRoleCapacityData[role]`. -/
def findRole (role : String) : RoleMap → Option ClusterCapacityData
  | [] => none
  | (r, d) :: rest => if r = role then some d else findRole role rest

/-- Go map store to an existing key: replace the (unique) entry in place. -/
def updateRole (role : String) (f : ClusterCapacityData → ClusterCapacityData) :
    RoleMap → RoleMap
  | [] => []
  | (r, d) :: rest =>
    if r = role then (r, f d) :: rest else (r, d) :: updateRole role f rest

/-- Lines 111–162: the body of `for role := range roles` for one role — either
accumulate into the existing record or create a fresh one (the latter also
appends to `roleNames`, i.e. extends the key list). -/
def upsertRole (node : Node) (t : NodePodTotals) (st : RoleMap) (role : String) : RoleMap :=
  match findRole role st with
  | some _ => updateRole role (fun d => accumRoleExisting d node t) st
  | none => st ++ [(role, freshRoleRecord node t)]

/-- The whole per-role loop for one node. -/
def applyNodeToState (st : RoleMap) (node : Node) (nodePods ntPods : List Pod) : RoleMap :=
  (rolesFinal node.labels).foldl (upsertRole node (nodePodTotals nodePods ntPods)) st

/-- The query and selector results the `node-role` subcommand observes from
the external collaborators: the node listing, whether
`fields.ParseSelector` accepts the two selectors built from a node name, and
the two per-node pod listings. -/
structure NodeRoleEnv where
  nodesList : Except String (List Node)
  selectorNodeOk : String → Bool
  selectorNodePhaseOk : String → Bool
  podsByNode : String → Except String (List Pod)
  podsByNodeNonTerm : String → Except String (List Pod)

/-- Lines 86–162 for one node: the two selector constructions are checked
(wrapped error on failure); the two pod-listing errors are assigned but never
checked (lines 90 and 97), so the code proceeds with the (empty) decoded
items. -/
def processNode (env : NodeRoleEnv) (st : RoleMap) (node : Node) : Except String RoleMap :=
  if env.selectorNodeOk node.name then
    let nodePods := itemsOf (env.podsByNode node.name)
    if env.selectorNodePhaseOk node.name then
      let ntPods := itemsOf (env.podsByNodeNonTerm node.name)
      .ok (applyNodeToState st node nodePods ntPods)
    else .error "failed to create fieldSelector"
  else .error "failed to create fieldSelector"

/-- The node loop (lines 69–164), stopping at the first selector failure. -/
def processNodes (env : NodeRoleEnv) : List Node → RoleMap → Except String RoleMap
  | [], st => .ok st
  | node :: rest, st =>
    match processNode env st node with
    | .error e => .error e
    | .ok st' => processNodes env rest st'

/-- Lines 166–172: the finalization pass computing the derived available
fields of every role record. -/
def finalizeRecord (d : ClusterCapacityData) : ClusterCapacityData :=
  { d with
    TotalAvailablePods := quantityValue d.TotalAllocatablePods - d.TotalNonTermPodCount
    TotalAvailableCPU := d.TotalAllocatableCPU - d.TotalRequestsCPU
    TotalAvailableMemory := d.TotalAllocatableMemory - d.TotalRequestsMemory }

/-- Finalization over the whole role map. -/
def finalizeAll (st : RoleMap) : RoleMap :=
  st.map (fun e => (e.1, finalizeRecord e.2))

/-- `nodeRoleCmd.RunE` (lines 48–185) after clientset creation: run the node
loop, finalize every role record, and sort `roleNames` (line 180,
`sort.Strings`) before handing both to the renderer. -/
def nodeRoleRunE (env : NodeRoleEnv) :
    Except String (RoleMap × List String) :=
  match env.nodesList with
  | .error e => .error ("failed to list nodes: " ++ e)
  | .ok nodes =>
    match processNodes env nodes [] with
    | .error e => .error e
    | .ok st =>
      .ok (finalizeAll st, (st.map Prod.fst).insertionSort (· ≤ ·))

/-- The environment presented by a live cluster holding exactly `nodes` and
`pods`: node names are well formed so both selectors parse, and the scoped
pod listings return exactly the matching subsets. -/
def liveNodeRoleEnv (nodes : List Node) (pods : List Pod) : NodeRoleEnv :=
  { nodesList := .ok nodes
    selectorNodeOk := fun _ => true
    selectorNodePhaseOk := fun _ => true
    podsByNode := fun name => .ok (pods.filter (fun p => p.nodeName == name))
    podsByNodeNonTerm := fun name =>
      .ok (pods.filter (fun p => p.nodeName == name && nonTerminated p)) }

/-- The role map accumulated on a live cluster state (before finalization). -/
def liveNodeRoleState (nodes : List Node) (pods : List Pod) : RoleMap :=
  nodes.foldl
    (fun st node =>
      applyNodeToState st node
        (pods.filter (fun p => p.nodeName == node.name))
        (pods.filter (fun p => p.nodeName == node.name && nonTerminated p)))
    []

/-! ## Specification-side functions and concrete inputs used by the claims -/

/-- Sum over the nodes of the number of Ready/True conditions each carries. -/
def sumReadyCount (nodes : List Node) : Int :=
  (nodes.map (fun n => readyConditionCount n.conditions)).sum

def countUnschedulable (nodes : List Node) : Int :=
  (nodes.countP (fun n => n.unschedulable) : Int)

def sumCapacityPods (nodes : List Node) : Quantity :=
  (nodes.map (fun n => n.capacity.pods)).sum

def sumCapacityCPU (nodes : List Node) : Quantity :=
  (nodes.map (fun n => n.capacity.cpu)).sum

def sumCapacityMemory (nodes : List Node) : Quantity :=
  (nodes.map (fun n => n.capacity.memory)).sum

def sumAllocatablePods (nodes : List Node) : Quantity :=
  (nodes.map (fun n => n.allocatable.pods)).sum

def sumAllocatableCPU (nodes : List Node) : Quantity :=
  (nodes.map (fun n => n.allocatable.cpu)).sum

def sumAllocatableMemory (nodes : List Node) : Quantity :=
  (nodes.map (fun n => n.allocatable.memory)).sum

def podRequestsCPU (p : Pod) : Quantity := (p.containers.map (fun c => c.requestsCpu)).sum

def podRequestsMemory (p : Pod) : Quantity := (p.containers.map (fun c => c.requestsMemory)).sum

def podLimitsCPU (p : Pod) : Quantity := (p.containers.map (fun c => c.limitsCpu)).sum

def podLimitsMemory (p : Pod) : Quantity := (p.containers.map (fun c => c.limitsMemory)).sum

def sumRequestsCPU (pods : List Pod) : Quantity := (pods.map podRequestsCPU).sum

def sumRequestsMemory (pods : List Pod) : Quantity := (pods.map podRequestsMemory).sum

def sumLimitsCPU (pods : List Pod) : Quantity := (pods.map podLimitsCPU).sum

def sumLimitsMemory (pods : List Pod) : Quantity := (pods.map podLimitsMemory).sum

/-- The cluster record spelled out field by field: what the cluster
aggregator computes on a live state (proved below as `clusterRecord_eq`).
Note `TotalAvailablePods`, `TotalAvailableCPU` and `TotalAvailableMemory`
stay at their zero values: `clusterCmd.RunE` never assigns them. -/
def specClusterRecord (nodes : List Node) (pods : List Pod) : ClusterCapacityData :=
  { TotalNodeCount := (nodes.length : Int)
    TotalReadyNodeCount := sumReadyCount nodes
    TotalUnreadyNodeCount := (nodes.length : Int) - sumReadyCount nodes
    TotalUnschedulableNodeCount := countUnschedulable nodes
    TotalPodCount := (pods.length : Int)
    TotalNonTermPodCount := ((pods.filter nonTerminated).length : Int)
    TotalAvailablePods := 0
    TotalCapacityPods := sumCapacityPods nodes
    TotalCapacityCPU := sumCapacityCPU nodes
    TotalCapacityMemory := sumCapacityMemory nodes
    TotalAllocatablePods := sumAllocatablePods nodes
    TotalAllocatableCPU := sumAllocatableCPU nodes
    TotalAllocatableMemory := sumAllocatableMemory nodes
    TotalAvailableCPU := 0
    TotalAvailableMemory := 0
    TotalRequestsCPU := sumRequestsCPU (pods.filter nonTerminated)
    TotalRequestsMemory := sumRequestsMemory (pods.filter nonTerminated)
    TotalLimitsCPU := sumLimitsCPU (pods.filter nonTerminated)
    TotalLimitsMemory := sumLimitsMemory (pods.filter nonTerminated) }

/-- What one role bucket receives from one node: accumulation into an
existing record, or a fresh record. -/
def roleContrib (node : Node) (t : NodePodTotals) :
    Option ClusterCapacityData → ClusterCapacityData
  | some d => accumRoleExisting d node t
  | none => freshRoleRecord node t

/-- The per-role `TotalNodeCount` summed over all role records. -/
def sumNodeCount (st : RoleMap) : Int :=
  (st.map (fun e => e.2.TotalNodeCount)).sum

/-- The spec's description of a derived role: the non-empty suffix of a
label key prefixed `node-role.kubernetes.io/`, or the non-empty value of a
label with key `kubernetes.io/role`. -/
def specDerivedRole (labels : List (String × String)) (r : String) : Prop :=
  (r ≠ "" ∧ ∃ v, (rolePrefix ++ r, v) ∈ labels) ∨
    (r ≠ "" ∧ ("kubernetes.io/role", r) ∈ labels)

/-- What one label contributes to the role set. -/
def stepDerives (kv : String × String) (x : String) : Prop :=
  (x ≠ "" ∧ kv.1 = rolePrefix ++ x) ∨
    (x ≠ "" ∧ kv.1 = "kubernetes.io/role" ∧ kv.2 = x)

/-- Two role maps that agree as maps: equal lookups, duplicate-free key
lists with the same members (possibly in different orders). -/
def StateRel (st₁ st₂ : RoleMap) : Prop :=
  (∀ r, findRole r st₁ = findRole r st₂) ∧
    (st₁.map Prod.fst).Nodup ∧ (st₂.map Prod.fst).Nodup ∧
    (∀ r, r ∈ st₁.map Prod.fst ↔ r ∈ st₂.map Prod.fst)

/-- Two views of the same node whose label sets agree as multisets but may
be presented in different orders (Go map iteration order is unspecified). -/
def NodeSameButLabels (a b : Node) : Prop :=
  a.name = b.name ∧ a.conditions = b.conditions ∧ a.unschedulable = b.unschedulable ∧
    a.capacity = b.capacity ∧ a.allocatable = b.allocatable ∧ a.labels.Perm b.labels

/-- Two views of the same cluster node list, node by node. -/
abbrev NodesLabelPerm (l₁ l₂ : List Node) : Prop := List.Forall₂ NodeSameButLabels l₁ l₂

def zeroResources : ResourceList := { pods := 0, cpu := 0, memory := 0 }

/-- A roleless, schedulable node carrying no status conditions at all (in
particular no Ready/True condition). -/
def bareNode : Node :=
  { name := "n1", labels := [], conditions := [], unschedulable := false,
    capacity := zeroResources, allocatable := zeroResources }

/-- The one-node scenario of spec §8: capacity 4 CPU / 8Gi memory,
allocatable 3.5 CPU / 7Gi memory, 110 pods, Ready, schedulable. -/
def scenarioNode : Node :=
  { name := "s1", labels := [], conditions := [{ type := "Ready", status := "True" }],
    unschedulable := false,
    capacity := { pods := 110, cpu := 4, memory := 8589934592 },
    allocatable := { pods := 110, cpu := 7/2, memory := 7516192768 } }

/-- The scenario pod: one non-terminated pod on `s1` requesting 1 CPU and
2Gi of memory. -/
def scenarioPod : Pod :=
  { nodeName := "s1", phase := "Running",
    containers := [{ requestsCpu := 1, requestsMemory := 2147483648,
                     limitsCpu := 0, limitsMemory := 0 }] }

/-- A node whose status carries two Ready/True conditions. -/
def doublyReadyNode : Node :=
  { name := "d1", labels := [],
    conditions := [{ type := "Ready", status := "True" },
                   { type := "Ready", status := "True" }],
    unschedulable := false, capacity := zeroResources, allocatable := zeroResources }

/-- A worker node with 1 allocatable pod slot, 1 allocatable CPU and 1
allocatable byte of memory. -/
def overcommitNode : Node :=
  { name := "o1", labels := [("node-role.kubernetes.io/worker", "")],
    conditions := [{ type := "Ready", status := "True" }], unschedulable := false,
    capacity := { pods := 1, cpu := 1, memory := 1 },
    allocatable := { pods := 1, cpu := 1, memory := 1 } }

/-- A pod on `o1` requesting 2 CPU and 2 bytes of memory. -/
def overcommitPod : Pod :=
  { nodeName := "o1", phase := "Running",
    containers := [{ requestsCpu := 2, requestsMemory := 2,
                     limitsCpu := 2, limitsMemory := 2 }] }

/-- A node with two role labels, presented in one order … -/
def permNodeA : Node :=
  { name := "p1",
    labels := [("node-role.kubernetes.io/master", ""), ("node-role.kubernetes.io/etcd", "")],
    conditions := [{ type := "Ready", status := "True" }], unschedulable := false,
    capacity := zeroResources, allocatable := zeroResources }

/-- … and the same node with its labels presented in the other order. -/
def permNodeB : Node :=
  { name := "p1",
    labels := [("node-role.kubernetes.io/etcd", ""), ("node-role.kubernetes.io/master", "")],
    conditions := [{ type := "Ready", status := "True" }], unschedulable := false,
    capacity := zeroResources, allocatable := zeroResources }

/-- Whether a run returned a report rather than an error. -/
def exceptIsOk {α : Type} : Except String α → Bool
  | .ok _ => true
  | .error _ => false

/-- A cluster environment in which the node listing succeeds and both pod
listings fail. -/
def podFailClusterEnv : ClusterEnv :=
  { nodesList := .ok [bareNode], podsAll := .error "boom", podsNonTerm := .error "boom" }

/-- A cluster environment in which the node listing itself fails. -/
def nodesFailClusterEnv : ClusterEnv :=
  { nodesList := .error "boom", podsAll := .ok [], podsNonTerm := .ok [] }

/-- A node-role environment in which the node listing and both selector
constructions succeed but every pod listing fails. -/
def podFailNodeRoleEnv : NodeRoleEnv :=
  { nodesList := .ok [bareNode]
    selectorNodeOk := fun _ => true
    selectorNodePhaseOk := fun _ => true
    podsByNode := fun _ => .error "boom"
    podsByNodeNonTerm := fun _ => .error "boom" }

/-- The finalized role map of the overcommitted one-node cluster: one
`worker` node with 1 allocatable pod/CPU/byte carrying two pods that each
request 2 CPU and 2 bytes. -/
def overcommitState : RoleMap :=
  finalizeAll (liveNodeRoleState [overcommitNode] [overcommitPod, overcommitPod])

/-- The `worker` record of `overcommitState`. -/
def overcommitRecord : ClusterCapacityData :=
  (findRole "worker" overcommitState).getD {}

/-! ## Helper lemmas -/

theorem clusterRunE_live (nodes : List Node) (pods : List Pod) :
    clusterRunE (liveClusterEnv nodes pods) = .ok (clusterRecord nodes pods) := rfl

theorem processNodes_live (pods : List Pod) :
    ∀ (nodes : List Node) (st : RoleMap),
      processNodes (liveNodeRoleEnv nodes pods) nodes st = .ok (nodes.foldl
        (fun st node =>
          applyNodeToState st node
            (pods.filter (fun p => p.nodeName == node.name))
            (pods.filter (fun p => p.nodeName == node.name && nonTerminated p)))
        st) := by
  intro nodes
  suffices h : ∀ (env : NodeRoleEnv) (ns : List Node) (st : RoleMap),
      env.selectorNodeOk = (fun _ => true) →
      env.selectorNodePhaseOk = (fun _ => true) →
      env.podsByNode = (fun name => .ok (pods.filter (fun p => p.nodeName == name))) →
      env.podsByNodeNonTerm =
        (fun name => .ok (pods.filter (fun p => p.nodeName == name && nonTerminated p))) →
      processNodes env ns st = .ok (ns.foldl
        (fun st node =>
          applyNodeToState st node
            (pods.filter (fun p => p.nodeName == node.name))
            (pods.filter (fun p => p.nodeName == node.name && nonTerminated p)))
        st) by
    intro st
    exact h (liveNodeRoleEnv nodes pods) nodes st rfl rfl rfl rfl
  intro env ns
  induction ns with
  | nil => intro st _ _ _ _; rfl
  | cons node rest ih =>
    intro st h1 h2 h3 h4
    simp only [processNodes, processNode, h1, h2, h3, h4, if_true, itemsOf,
      List.foldl_cons]
    exact ih _ h1 h2 h3 h4

theorem nodeRoleRunE_live (nodes : List Node) (pods : List Pod) :
    nodeRoleRunE (liveNodeRoleEnv nodes pods) =
      .ok (finalizeAll (liveNodeRoleState nodes pods),
        ((liveNodeRoleState nodes pods).map Prod.fst).insertionSort (· ≤ ·)) := by
  have h := processNodes_live pods nodes []
  simp only [liveNodeRoleEnv] at h
  simp only [nodeRoleRunE, liveNodeRoleEnv, liveNodeRoleState, h]

theorem foldl_readyCondStep (conds : List NodeCondition) :
    ∀ d : ClusterCapacityData, conds.foldl readyCondStep d =
      { d with TotalReadyNodeCount := d.TotalReadyNodeCount + readyConditionCount conds } := by
  induction conds with
  | nil => intro d; simp [readyConditionCount]
  | cons c cs ih =>
    intro d
    by_cases h : isReadyTrue c
    · simp only [List.foldl_cons, readyCondStep, h, if_true, ih, readyConditionCount,
        List.countP_cons, h]
      cases d
      simp only [ClusterCapacityData.mk.injEq, and_true, true_and]
      push_cast
      omega
    · simp only [List.foldl_cons, readyCondStep, h, if_false, ih, readyConditionCount,
        List.countP_cons, h]
      simp [h]

theorem accumClusterNode_eq (d : ClusterCapacityData) (n : Node) :
    accumClusterNode d n =
      { d with
        TotalNodeCount := d.TotalNodeCount + 1
        TotalReadyNodeCount := d.TotalReadyNodeCount + readyConditionCount n.conditions
        TotalUnschedulableNodeCount :=
          d.TotalUnschedulableNodeCount + (if n.unschedulable then 1 else 0)
        TotalCapacityPods := d.TotalCapacityPods + n.capacity.pods
        TotalCapacityCPU := d.TotalCapacityCPU + n.capacity.cpu
        TotalCapacityMemory := d.TotalCapacityMemory + n.capacity.memory
        TotalAllocatablePods := d.TotalAllocatablePods + n.allocatable.pods
        TotalAllocatableCPU := d.TotalAllocatableCPU + n.allocatable.cpu
        TotalAllocatableMemory := d.TotalAllocatableMemory + n.allocatable.memory } := by
  by_cases h : n.unschedulable <;>
    simp [accumClusterNode, foldl_readyCondStep, h]

theorem foldl_accumClusterNode (nodes : List Node) :
    ∀ d : ClusterCapacityData, nodes.foldl accumClusterNode d =
      { d with
        TotalNodeCount := d.TotalNodeCount + (nodes.length : Int)
        TotalReadyNodeCount := d.TotalReadyNodeCount + sumReadyCount nodes
        TotalUnschedulableNodeCount :=
          d.TotalUnschedulableNodeCount + countUnschedulable nodes
        TotalCapacityPods := d.TotalCapacityPods + sumCapacityPods nodes
        TotalCapacityCPU := d.TotalCapacityCPU + sumCapacityCPU nodes
        TotalCapacityMemory := d.TotalCapacityMemory + sumCapacityMemory nodes
        TotalAllocatablePods := d.TotalAllocatablePods + sumAllocatablePods nodes
        TotalAllocatableCPU := d.TotalAllocatableCPU + sumAllocatableCPU nodes
        TotalAllocatableMemory := d.TotalAllocatableMemory + sumAllocatableMemory nodes } := by
  induction nodes with
  | nil =>
    intro d
    simp [sumReadyCount, countUnschedulable, sumCapacityPods, sumCapacityCPU,
      sumCapacityMemory, sumAllocatablePods, sumAllocatableCPU, sumAllocatableMemory]
  | cons n ns ih =>
    intro d
    simp only [List.foldl_cons, accumClusterNode_eq, ih, sumReadyCount, countUnschedulable,
      sumCapacityPods, sumCapacityCPU, sumCapacityMemory, sumAllocatablePods,
      sumAllocatableCPU, sumAllocatableMemory, List.map_cons, List.sum_cons,
      List.countP_cons, List.length_cons]
    cases d
    simp only [ClusterCapacityData.mk.injEq, and_true, true_and]
    refine ⟨by push_cast; ring, by push_cast; ring, ?_, by ring, by ring, by ring,
      by ring, by ring, by ring⟩
    by_cases h : n.unschedulable <;> simp [h] <;> push_cast <;> ring

theorem foldl_containerReqStep (cs : List ContainerResources) :
    ∀ d : ClusterCapacityData, cs.foldl containerReqStep d =
      { d with
        TotalRequestsCPU := d.TotalRequestsCPU + (cs.map (fun c => c.requestsCpu)).sum
        TotalRequestsMemory :=
          d.TotalRequestsMemory + (cs.map (fun c => c.requestsMemory)).sum
        TotalLimitsCPU := d.TotalLimitsCPU + (cs.map (fun c => c.limitsCpu)).sum
        TotalLimitsMemory := d.TotalLimitsMemory + (cs.map (fun c => c.limitsMemory)).sum } := by
  induction cs with
  | nil => intro d; simp
  | cons c cs ih =>
    intro d
    simp only [List.foldl_cons, containerReqStep, ih, List.map_cons, List.sum_cons]
    cases d
    simp only [ClusterCapacityData.mk.injEq, and_true, true_and]
    refine ⟨by ring, by ring, by ring, by ring⟩

theorem foldl_accumPodRequests (pods : List Pod) :
    ∀ d : ClusterCapacityData, pods.foldl accumPodRequests d =
      { d with
        TotalRequestsCPU := d.TotalRequestsCPU + sumRequestsCPU pods
        TotalRequestsMemory := d.TotalRequestsMemory + sumRequestsMemory pods
        TotalLimitsCPU := d.TotalLimitsCPU + sumLimitsCPU pods
        TotalLimitsMemory := d.TotalLimitsMemory + sumLimitsMemory pods } := by
  induction pods with
  | nil =>
    intro d
    simp [sumRequestsCPU, sumRequestsMemory, sumLimitsCPU, sumLimitsMemory]
  | cons p ps ih =>
    intro d
    simp only [List.foldl_cons, accumPodRequests, foldl_containerReqStep, ih,
      sumRequestsCPU, sumRequestsMemory, sumLimitsCPU, sumLimitsMemory, List.map_cons,
      List.sum_cons, podRequestsCPU, podRequestsMemory, podLimitsCPU, podLimitsMemory]
    cases d
    simp only [ClusterCapacityData.mk.injEq, and_true, true_and]
    refine ⟨by ring, by ring, by ring, by ring⟩

theorem clusterRecord_eq (nodes : List Node) (pods : List Pod) :
    clusterRecord nodes pods = specClusterRecord nodes pods := by
  simp only [clusterRecord, clusterRunE, liveClusterEnv, itemsOf, foldl_accumClusterNode,
    foldl_accumPodRequests, specClusterRecord]
  simp only [ClusterCapacityData.mk.injEq]
  norm_num

theorem prefix_trim_eq (k p x : String) :
    (goHasPrefix k p = true ∧ goTrimPrefix k p = x) ↔ k = p ++ x := by
  cases k with | mk kd =>
  cases p with | mk pd =>
  cases x with | mk xd =>
  constructor
  · rintro ⟨h1, h2⟩
    obtain ⟨t, ht⟩ := List.isPrefixOf_iff_prefix.mp h1
    rw [goTrimPrefix, if_pos h1] at h2
    have h2d : (kd.drop pd.length) = xd := congrArg String.data h2
    have ht2 : pd ++ t = kd := ht
    subst ht2
    rw [List.drop_left] at h2d
    subst h2d
    rfl
  · intro h
    have hd : kd = pd ++ xd := congrArg String.data h
    subst hd
    have h1 : goHasPrefix (String.mk (pd ++ xd)) (String.mk pd) = true :=
      List.isPrefixOf_iff_prefix.mpr (List.prefix_append pd xd)
    refine ⟨h1, ?_⟩
    rw [goTrimPrefix, if_pos h1]
    show String.mk ((pd ++ xd).drop pd.length) = String.mk xd
    rw [List.drop_left]

theorem mem_insertRole {acc : List String} {role x : String} :
    x ∈ insertRole acc role ↔ x ∈ acc ∨ x = role := by
  unfold insertRole
  by_cases h : role ∈ acc
  · simp only [h, if_true]
    constructor
    · exact Or.inl
    · rintro (hx | rfl)
      · exact hx
      · exact h
  · simp [h]

theorem nodup_insertRole {acc : List String} {role : String} (h : acc.Nodup) :
    (insertRole acc role).Nodup := by
  unfold insertRole
  by_cases hm : role ∈ acc
  · simpa [hm]
  · simp only [hm, if_false]
    rw [← List.concat_eq_append]
    exact h.concat hm

theorem goHasPrefix_kio : goHasPrefix "kubernetes.io/role" rolePrefix = false := by decide

theorem mem_roleStep {acc : List String} {kv : String × String} {x : String} :
    x ∈ roleStep acc kv ↔ x ∈ acc ∨ stepDerives kv x := by
  unfold roleStep
  by_cases hp : goHasPrefix kv.1 rolePrefix
  · by_cases hl : (goTrimPrefix kv.1 rolePrefix).data.length > 0
    · simp only [hp, if_true, hl, mem_insertRole]
      constructor
      · rintro (hx | rfl)
        · exact Or.inl hx
        · refine Or.inr (Or.inl ⟨?_, ((prefix_trim_eq kv.1 rolePrefix _).mp ⟨hp, rfl⟩)⟩)
          intro hemp
          rw [hemp] at hl
          simp at hl
      · rintro (hx | (⟨hx, hkey⟩ | ⟨hx, hkio, hv⟩))
        · exact Or.inl hx
        · exact Or.inr (((prefix_trim_eq kv.1 rolePrefix x).mpr hkey).2.symm)
        · rw [hkio] at hp
          rw [goHasPrefix_kio] at hp
          exact absurd hp (by simp)
    · simp only [hp, if_true, hl, if_false]
      constructor
      · exact Or.inl
      · rintro (hx | (⟨hx, hkey⟩ | ⟨hx, hkio, hv⟩))
        · exact hx
        · exfalso
          have ht := ((prefix_trim_eq kv.1 rolePrefix x).mpr hkey).2
          rw [ht] at hl
          apply hl
          have : x.data ≠ [] := by
            intro hxe
            exact hx (congrArg String.mk hxe)
          exact List.length_pos.mpr this
        · rw [hkio] at hp
          rw [goHasPrefix_kio] at hp
          exact absurd hp (by simp)
  · rw [if_neg hp]
    by_cases hr : kv.1 = "kubernetes.io/role" ∧ kv.2 ≠ ""
    · rw [if_pos hr, mem_insertRole]
      constructor
      · rintro (hx | rfl)
        · exact Or.inl hx
        · exact Or.inr (Or.inr ⟨hr.2, hr.1, rfl⟩)
      · rintro (hx | (⟨hx, hkey⟩ | ⟨hx, hkio, hv⟩))
        · exact Or.inl hx
        · exact absurd ((prefix_trim_eq kv.1 rolePrefix x).mpr hkey).1 hp
        · exact Or.inr hv.symm
    · rw [if_neg hr]
      constructor
      · exact Or.inl
      · rintro (hx | (⟨hx, hkey⟩ | ⟨hx, hkio, hv⟩))
        · exact hx
        · exact absurd ((prefix_trim_eq kv.1 rolePrefix x).mpr hkey).1 hp
        · exact absurd ⟨hkio, by rw [hv]; exact hx⟩ hr

theorem nodup_roleStep {acc : List String} {kv : String × String} (h : acc.Nodup) :
    (roleStep acc kv).Nodup := by
  unfold roleStep
  split
  · split
    · exact nodup_insertRole h
    · exact h
  · split
    · exact nodup_insertRole h
    · exact h

theorem mem_foldl_roleStep (labels : List (String × String)) :
    ∀ (acc : List String) (x : String),
      x ∈ labels.foldl roleStep acc ↔ x ∈ acc ∨ ∃ kv ∈ labels, stepDerives kv x := by
  induction labels with
  | nil => intro acc x; simp
  | cons kv rest ih =>
    intro acc x
    rw [List.foldl_cons, ih, mem_roleStep]
    constructor
    · rintro ((hx | hs) | ⟨kv2, hm, hs⟩)
      · exact Or.inl hx
      · exact Or.inr ⟨kv, List.mem_cons_self kv rest, hs⟩
      · exact Or.inr ⟨kv2, List.mem_cons_of_mem kv hm, hs⟩
    · rintro (hx | ⟨kv2, hm, hs⟩)
      · exact Or.inl (Or.inl hx)
      · rcases List.mem_cons.mp hm with rfl | hm2
        · exact Or.inl (Or.inr hs)
        · exact Or.inr ⟨kv2, hm2, hs⟩

theorem nodup_foldl_roleStep (labels : List (String × String)) :
    ∀ acc : List String, acc.Nodup → (labels.foldl roleStep acc).Nodup := by
  induction labels with
  | nil => intro acc h; simpa
  | cons kv rest ih => intro acc h; exact ih _ (nodup_roleStep h)

theorem specDerivedRole_iff (labels : List (String × String)) (x : String) :
    specDerivedRole labels x ↔ ∃ kv ∈ labels, stepDerives kv x := by
  unfold specDerivedRole stepDerives
  constructor
  · rintro (⟨hx, v, hv⟩ | ⟨hx, hm⟩)
    · exact ⟨(rolePrefix ++ x, v), hv, Or.inl ⟨hx, rfl⟩⟩
    · exact ⟨("kubernetes.io/role", x), hm, Or.inr ⟨hx, rfl, rfl⟩⟩
  · rintro ⟨kv, hm, (⟨hx, hkey⟩ | ⟨hx, hkio, hv⟩)⟩
    · refine Or.inl ⟨hx, kv.2, ?_⟩
      rw [← hkey]
      exact hm
    · refine Or.inr ⟨hx, ?_⟩
      have : kv = ("kubernetes.io/role", x) := by
        cases kv
        simp_all
      rw [← this]
      exact hm

theorem mem_rolesOfLabels (labels : List (String × String)) (x : String) :
    x ∈ rolesOfLabels labels ↔ specDerivedRole labels x := by
  rw [rolesOfLabels, mem_foldl_roleStep, specDerivedRole_iff]
  simp

theorem nodup_rolesOfLabels (labels : List (String × String)) :
    (rolesOfLabels labels).Nodup :=
  nodup_foldl_roleStep labels [] List.nodup_nil

theorem rolesFinal_of_empty {labels : List (String × String)}
    (h : rolesOfLabels labels = []) : rolesFinal labels = ["<none>"] := by
  rw [rolesFinal, h]
  rfl

theorem rolesFinal_of_nonempty {labels : List (String × String)}
    (h : rolesOfLabels labels ≠ []) : rolesFinal labels = rolesOfLabels labels := by
  rw [rolesFinal]
  simp [h]

theorem nodup_rolesFinal (labels : List (String × String)) :
    (rolesFinal labels).Nodup := by
  by_cases h : rolesOfLabels labels = []
  · rw [rolesFinal_of_empty h]
    simp
  · rw [rolesFinal_of_nonempty h]
    exact nodup_rolesOfLabels labels

theorem mem_rolesFinal (labels : List (String × String)) (x : String) :
    x ∈ rolesFinal labels ↔
      (specDerivedRole labels x ∨
        (x = "<none>" ∧ ∀ y, ¬ specDerivedRole labels y)) := by
  by_cases h : rolesOfLabels labels = []
  · rw [rolesFinal_of_empty h]
    have hnone : ∀ y, ¬ specDerivedRole labels y := by
      intro y hy
      have := (mem_rolesOfLabels labels y).mpr hy
      rw [h] at this
      exact absurd this (List.not_mem_nil y)
    simp only [List.mem_singleton]
    constructor
    · rintro rfl
      exact Or.inr ⟨rfl, hnone⟩
    · rintro (hd | ⟨rfl, _⟩)
      · exact absurd hd (hnone x)
      · rfl
  · rw [rolesFinal_of_nonempty h, mem_rolesOfLabels]
    constructor
    · exact Or.inl
    · rintro (hd | ⟨rfl, hnone⟩)
      · exact hd
      · exfalso
        apply h
        rw [List.eq_nil_iff_forall_not_mem]
        intro y hy
        exact hnone y ((mem_rolesOfLabels labels y).mp hy)

theorem mem_rolesFinal_perm {labels₁ labels₂ : List (String × String)}
    (h : labels₁.Perm labels₂) (x : String) :
    x ∈ rolesFinal labels₁ ↔ x ∈ rolesFinal labels₂ := by
  have hd : ∀ y, specDerivedRole labels₁ y ↔ specDerivedRole labels₂ y := by
    intro y
    rw [specDerivedRole_iff, specDerivedRole_iff]
    constructor
    · rintro ⟨kv, hm, hs⟩
      exact ⟨kv, h.mem_iff.mp hm, hs⟩
    · rintro ⟨kv, hm, hs⟩
      exact ⟨kv, h.mem_iff.mpr hm, hs⟩
  rw [mem_rolesFinal, mem_rolesFinal]
  constructor
  · rintro (h1 | ⟨rfl, h2⟩)
    · exact Or.inl ((hd x).mp h1)
    · exact Or.inr ⟨rfl, fun y hy => h2 y ((hd y).mpr hy)⟩
  · rintro (h1 | ⟨rfl, h2⟩)
    · exact Or.inl ((hd x).mpr h1)
    · exact Or.inr ⟨rfl, fun y hy => h2 y ((hd y).mp hy)⟩

theorem findRole_updateRole_self (role : String) (f : ClusterCapacityData → ClusterCapacityData) :
    ∀ st : RoleMap, findRole role (updateRole role f st) = (findRole role st).map f := by
  intro st
  induction st with
  | nil => rfl
  | cons e rest ih =>
    obtain ⟨r, d⟩ := e
    by_cases h : r = role
    · simp [updateRole, findRole, h]
    · simp [updateRole, findRole, h, ih]

theorem findRole_updateRole_ne {r role : String} (h : r ≠ role)
    (f : ClusterCapacityData → ClusterCapacityData) :
    ∀ st : RoleMap, findRole r (updateRole role f st) = findRole r st := by
  intro st
  induction st with
  | nil => rfl
  | cons e rest ih =>
    obtain ⟨r0, d⟩ := e
    by_cases h0 : r0 = role
    · have hne : r0 ≠ r := by rw [h0]; exact fun hh => h hh.symm
      simp only [updateRole, findRole, h0, hne, if_true, if_false]
      simp only [if_neg (show ¬ role = r from fun hh => h hh.symm)]
    · simp [updateRole, findRole, h0, ih]

theorem findRole_append_some {r : String} {st : RoleMap} {d : ClusterCapacityData}
    (h : findRole r st = some d) (e : String × ClusterCapacityData) :
    findRole r (st ++ [e]) = some d := by
  induction st with
  | nil => simp [findRole] at h
  | cons e0 rest ih =>
    obtain ⟨r0, d0⟩ := e0
    by_cases h0 : r0 = r
    · simp [findRole, h0] at h ⊢
      exact h
    · simp [findRole, h0] at h ⊢
      exact ih h

theorem findRole_append_none {r : String} {st : RoleMap}
    (h : findRole r st = none) (e : String × ClusterCapacityData) :
    findRole r (st ++ [e]) = if e.1 = r then some e.2 else none := by
  induction st with
  | nil => simp [findRole]
  | cons e0 rest ih =>
    obtain ⟨r0, d0⟩ := e0
    by_cases h0 : r0 = r
    · simp [findRole, h0] at h
    · simp [findRole, h0] at h ⊢
      exact ih h

theorem map_fst_updateRole (role : String) (f : ClusterCapacityData → ClusterCapacityData) :
    ∀ st : RoleMap, (updateRole role f st).map Prod.fst = st.map Prod.fst := by
  intro st
  induction st with
  | nil => rfl
  | cons e rest ih =>
    obtain ⟨r0, d0⟩ := e
    by_cases h0 : r0 = role
    · simp [updateRole, h0]
    · simp [updateRole, h0, ih]

theorem findRole_eq_none_iff {r : String} {st : RoleMap} :
    findRole r st = none ↔ r ∉ st.map Prod.fst := by
  induction st with
  | nil => simp [findRole]
  | cons e rest ih =>
    obtain ⟨r0, d0⟩ := e
    by_cases h0 : r0 = r
    · simp [findRole, h0]
    · rw [show findRole r ((r0, d0) :: rest) = findRole r rest from by simp [findRole, h0]]
      rw [ih]
      simp only [List.map_cons, List.mem_cons]
      constructor
      · intro hn hc
        rcases hc with hc1 | hc2
        · exact h0 hc1.symm
        · exact hn hc2
      · intro hn hc
        exact hn (Or.inr hc)

theorem findRole_upsertRole_self (node : Node) (t : NodePodTotals) (st : RoleMap)
    (role : String) :
    findRole role (upsertRole node t st role) = some (roleContrib node t (findRole role st)) := by
  unfold upsertRole
  cases h : findRole role st with
  | some d =>
    simp only [roleContrib]
    rw [findRole_updateRole_self, h]
    rfl
  | none =>
    simp only [roleContrib]
    rw [findRole_append_none h]
    simp

theorem findRole_upsertRole_ne {r role : String} (h : r ≠ role) (node : Node)
    (t : NodePodTotals) (st : RoleMap) :
    findRole r (upsertRole node t st role) = findRole r st := by
  unfold upsertRole
  cases h0 : findRole role st with
  | some d => rw [findRole_updateRole_ne h]
  | none =>
    cases h1 : findRole r st with
    | some d1 => rw [findRole_append_some h1]
    | none =>
      rw [findRole_append_none h1]
      simp only []
      rw [if_neg]
      exact fun hh => h hh.symm

theorem mem_map_fst_upsertRole {r : String} (node : Node) (t : NodePodTotals)
    (st : RoleMap) (role : String) :
    r ∈ (upsertRole node t st role).map Prod.fst ↔ r ∈ st.map Prod.fst ∨ r = role := by
  unfold upsertRole
  cases h : findRole role st with
  | some d =>
    rw [map_fst_updateRole]
    constructor
    · exact Or.inl
    · rintro (hx | rfl)
      · exact hx
      · by_contra hm
        rw [← findRole_eq_none_iff] at hm
        rw [hm] at h
        cases h
  | none => simp

theorem nodup_map_fst_upsertRole (node : Node) (t : NodePodTotals) (st : RoleMap)
    (role : String) (h : (st.map Prod.fst).Nodup) :
    ((upsertRole node t st role).map Prod.fst).Nodup := by
  unfold upsertRole
  cases h0 : findRole role st with
  | some d =>
    rw [map_fst_updateRole]
    exact h
  | none =>
    rw [findRole_eq_none_iff] at h0
    simp only [List.map_append, List.map_cons, List.map_nil]
    rw [← List.concat_eq_append]
    exact h.concat h0

theorem findRole_foldl_upsert (node : Node) (t : NodePodTotals) :
    ∀ (roles : List String) (st : RoleMap) (r : String), roles.Nodup →
      findRole r (roles.foldl (upsertRole node t) st) =
        if r ∈ roles then some (roleContrib node t (findRole r st)) else findRole r st := by
  intro roles
  induction roles with
  | nil =>
    intro st r _
    simp
  | cons role rs ih =>
    intro st r hnd
    have hnd2 := hnd.of_cons
    have hrole : role ∉ rs := (List.nodup_cons.mp hnd).1
    rw [List.foldl_cons]
    by_cases hr : r = role
    · subst hr
      rw [ih _ _ hnd2, if_neg hrole, if_pos (List.mem_cons_self r rs),
        findRole_upsertRole_self]
    · rw [ih _ _ hnd2]
      by_cases hin : r ∈ rs
      · rw [if_pos hin, if_pos (List.mem_cons_of_mem role hin),
          findRole_upsertRole_ne hr]
      · have : r ∉ role :: rs := by
          intro hc
          rcases List.mem_cons.mp hc with hc1 | hc2
          · exact hr hc1
          · exact hin hc2
        rw [if_neg hin, if_neg this, findRole_upsertRole_ne hr]

theorem mem_map_fst_foldl_upsert (node : Node) (t : NodePodTotals) :
    ∀ (roles : List String) (st : RoleMap) (r : String),
      r ∈ (roles.foldl (upsertRole node t) st).map Prod.fst ↔
        r ∈ st.map Prod.fst ∨ r ∈ roles := by
  intro roles
  induction roles with
  | nil => intro st r; simp
  | cons role rs ih =>
    intro st r
    rw [List.foldl_cons, ih, mem_map_fst_upsertRole]
    constructor
    · rintro ((hx | rfl) | hx)
      · exact Or.inl hx
      · exact Or.inr (List.mem_cons_self r rs)
      · exact Or.inr (List.mem_cons_of_mem role hx)
    · rintro (hx | hx)
      · exact Or.inl (Or.inl hx)
      · rcases List.mem_cons.mp hx with rfl | hx2
        · exact Or.inl (Or.inr rfl)
        · exact Or.inr hx2

theorem nodup_map_fst_foldl_upsert (node : Node) (t : NodePodTotals) :
    ∀ (roles : List String) (st : RoleMap), (st.map Prod.fst).Nodup →
      ((roles.foldl (upsertRole node t) st).map Prod.fst).Nodup := by
  intro roles
  induction roles with
  | nil => intro st h; simpa
  | cons role rs ih =>
    intro st h
    rw [List.foldl_cons]
    exact ih _ (nodup_map_fst_upsertRole node t st role h)

theorem foldl_freshReadyStep (conds : List NodeCondition) :
    ∀ d : ClusterCapacityData, conds.foldl freshReadyStep d =
      if conds.any isReadyTrue then
        { d with TotalReadyNodeCount := 1, TotalUnreadyNodeCount := 0 }
      else d := by
  induction conds with
  | nil => intro d; simp
  | cons c cs ih =>
    intro d
    rw [List.foldl_cons, List.any_cons]
    by_cases h : isReadyTrue c
    · rw [freshReadyStep, if_pos h, ih, h]
      by_cases h2 : cs.any isReadyTrue <;> simp [h2]
    · have hf : isReadyTrue c = false := by
        cases hc : isReadyTrue c
        · rfl
        · exact absurd hc h
      rw [freshReadyStep, if_neg h, ih, hf]
      simp

theorem TotalNodeCount_accumRoleExisting (d : ClusterCapacityData) (node : Node)
    (t : NodePodTotals) :
    (accumRoleExisting d node t).TotalNodeCount = d.TotalNodeCount + 1 := by
  by_cases h : node.unschedulable <;>
    simp [accumRoleExisting, foldl_readyCondStep, h]

theorem TotalNodeCount_freshRoleRecord (node : Node) (t : NodePodTotals) :
    (freshRoleRecord node t).TotalNodeCount = 1 := by
  by_cases h : node.unschedulable <;>
    by_cases h2 : node.conditions.any isReadyTrue <;>
      simp [freshRoleRecord, foldl_freshReadyStep, h, h2]

theorem TotalNodeCount_roleContrib (node : Node) (t : NodePodTotals)
    (o : Option ClusterCapacityData) :
    (roleContrib node t o).TotalNodeCount =
      (match o with | some d => d.TotalNodeCount | none => 0) + 1 := by
  cases o with
  | some d => simp [roleContrib, TotalNodeCount_accumRoleExisting]
  | none => simp [roleContrib, TotalNodeCount_freshRoleRecord]

theorem sumNodeCount_updateRole {role : String} {d0 : ClusterCapacityData}
    (f : ClusterCapacityData → ClusterCapacityData) :
    ∀ st : RoleMap, findRole role st = some d0 →
      sumNodeCount (updateRole role f st) =
        sumNodeCount st - d0.TotalNodeCount + (f d0).TotalNodeCount := by
  intro st
  induction st with
  | nil => intro h; simp [findRole] at h
  | cons e rest ih =>
    obtain ⟨r0, dd⟩ := e
    intro h
    by_cases h0 : r0 = role
    · rw [show findRole role ((r0, dd) :: rest) = some dd from by simp [findRole, h0]] at h
      injection h with h
      subst h
      simp only [updateRole, if_pos h0, sumNodeCount, List.map_cons, List.sum_cons]
      ring
    · rw [show findRole role ((r0, dd) :: rest) = findRole role rest from by
        simp [findRole, h0]] at h
      simp only [updateRole, if_neg h0, sumNodeCount, List.map_cons, List.sum_cons]
      have := ih h
      simp only [sumNodeCount] at this
      rw [this]
      ring

theorem sumNodeCount_append (st : RoleMap) (e : String × ClusterCapacityData) :
    sumNodeCount (st ++ [e]) = sumNodeCount st + e.2.TotalNodeCount := by
  simp [sumNodeCount]

theorem sumNodeCount_upsertRole (node : Node) (t : NodePodTotals) (st : RoleMap)
    (role : String) :
    sumNodeCount (upsertRole node t st role) = sumNodeCount st + 1 := by
  unfold upsertRole
  cases h : findRole role st with
  | some d =>
    rw [sumNodeCount_updateRole _ st h, TotalNodeCount_accumRoleExisting]
    ring
  | none =>
    rw [sumNodeCount_append, TotalNodeCount_freshRoleRecord]

theorem sumNodeCount_foldl_upsert (node : Node) (t : NodePodTotals) :
    ∀ (roles : List String) (st : RoleMap),
      sumNodeCount (roles.foldl (upsertRole node t) st) =
        sumNodeCount st + (roles.length : Int) := by
  intro roles
  induction roles with
  | nil => intro st; simp
  | cons role rs ih =>
    intro st
    rw [List.foldl_cons, ih, sumNodeCount_upsertRole, List.length_cons]
    push_cast
    ring

theorem sumNodeCount_applyNodeToState (st : RoleMap) (node : Node)
    (nodePods ntPods : List Pod) :
    sumNodeCount (applyNodeToState st node nodePods ntPods) =
      sumNodeCount st + ((rolesFinal node.labels).length : Int) := by
  unfold applyNodeToState
  rw [sumNodeCount_foldl_upsert]

theorem findRole_finalizeAll (r : String) :
    ∀ st : RoleMap, findRole r (finalizeAll st) = (findRole r st).map finalizeRecord := by
  intro st
  induction st with
  | nil => rfl
  | cons e rest ih =>
    obtain ⟨r0, d0⟩ := e
    by_cases h0 : r0 = r
    · simp [finalizeAll, findRole, h0]
    · simp [finalizeAll, findRole, h0] at ih ⊢
      exact ih

theorem map_fst_finalizeAll (st : RoleMap) :
    (finalizeAll st).map Prod.fst = st.map Prod.fst := by
  simp [finalizeAll, List.map_map, Function.comp]

theorem TotalNodeCount_finalizeRecord (d : ClusterCapacityData) :
    (finalizeRecord d).TotalNodeCount = d.TotalNodeCount := rfl

theorem sumNodeCount_finalizeAll (st : RoleMap) :
    sumNodeCount (finalizeAll st) = sumNodeCount st := by
  simp only [sumNodeCount, finalizeAll, List.map_map]
  have hc : ((fun e : String × ClusterCapacityData => e.2.TotalNodeCount) ∘
      fun e : String × ClusterCapacityData => (e.1, finalizeRecord e.2)) =
      fun e : String × ClusterCapacityData => e.2.TotalNodeCount := by
    funext e
    rfl
  rw [hc]

theorem quantityValue_den_one {q : Quantity} (h : q.den = 1) : quantityValue q = q.num := by
  have hq : (q.num : Rat) = q := (Rat.den_eq_one_iff q).mp h
  unfold quantityValue
  rw [← hq]
  split
  · exact Int.ceil_intCast q.num
  · exact Int.floor_intCast q.num

theorem processNode_ok_sum {env : NodeRoleEnv} {st st1 : RoleMap} {node : Node}
    (h : processNode env st node = .ok st1) :
    sumNodeCount st1 = sumNodeCount st + ((rolesFinal node.labels).length : Int) := by
  unfold processNode at h
  by_cases h1 : env.selectorNodeOk node.name
  · rw [if_pos h1] at h
    by_cases h2 : env.selectorNodePhaseOk node.name
    · rw [if_pos h2] at h
      injection h with h
      subst h
      exact sumNodeCount_applyNodeToState _ _ _ _
    · rw [if_neg h2] at h
      cases h
  · rw [if_neg h1] at h
    cases h

theorem processNodes_ok_sum (env : NodeRoleEnv) :
    ∀ (ns : List Node) (st st' : RoleMap), processNodes env ns st = .ok st' →
      sumNodeCount st' = sumNodeCount st +
        (ns.map (fun n => ((rolesFinal n.labels).length : Int))).sum := by
  intro ns
  induction ns with
  | nil =>
    intro st st' h
    injection h with h
    subst h
    simp
  | cons node rest ih =>
    intro st st' h
    rw [processNodes] at h
    cases hp : processNode env st node with
    | error e =>
      rw [hp] at h
      cases h
    | ok st1 =>
      rw [hp] at h
      have h2 := ih st1 st' h
      rw [h2, processNode_ok_sum hp]
      simp only [List.map_cons, List.sum_cons]
      ring

theorem nodeRoleRunE_ok_inv {env : NodeRoleEnv} {st : RoleMap} {names : List String}
    (h : nodeRoleRunE env = .ok (st, names)) :
    ∃ (nodes : List Node) (st0 : RoleMap),
      env.nodesList = .ok nodes ∧ processNodes env nodes [] = .ok st0 ∧
        st = finalizeAll st0 ∧ names = (st0.map Prod.fst).insertionSort (· ≤ ·) := by
  unfold nodeRoleRunE at h
  cases h1 : env.nodesList with
  | error e =>
    rw [h1] at h
    cases h
  | ok nodes =>
    rw [h1] at h
    dsimp only at h
    cases h2 : processNodes env nodes [] with
    | error e =>
      rw [h2] at h
      cases h
    | ok st0 =>
      rw [h2] at h
      injection h with h
      injection h with ha hb
      exact ⟨nodes, st0, rfl, h2, ha.symm, hb.symm⟩

theorem accumRoleExisting_labels_irrel {a b : Node} (h : NodeSameButLabels a b)
    (d : ClusterCapacityData) (t : NodePodTotals) :
    accumRoleExisting d a t = accumRoleExisting d b t := by
  obtain ⟨hn, hc, hu, hcap, hal, hl⟩ := h
  unfold accumRoleExisting
  rw [hc, hu, hcap, hal]

theorem freshRoleRecord_labels_irrel {a b : Node} (h : NodeSameButLabels a b)
    (t : NodePodTotals) :
    freshRoleRecord a t = freshRoleRecord b t := by
  obtain ⟨hn, hc, hu, hcap, hal, hl⟩ := h
  unfold freshRoleRecord
  rw [hc, hu, hcap, hal]

theorem roleContrib_labels_irrel {a b : Node} (h : NodeSameButLabels a b)
    (t : NodePodTotals) (o : Option ClusterCapacityData) :
    roleContrib a t o = roleContrib b t o := by
  cases o with
  | some d => exact accumRoleExisting_labels_irrel h d t
  | none => exact freshRoleRecord_labels_irrel h t

theorem StateRel_applyNode {st₁ st₂ : RoleMap} {a b : Node} (ps nts : List Pod)
    (hab : NodeSameButLabels a b) (hst : StateRel st₁ st₂) :
    StateRel (applyNodeToState st₁ a ps nts) (applyNodeToState st₂ b ps nts) := by
  obtain ⟨hfind, hnd₁, hnd₂, hmem⟩ := hst
  have hlab : a.labels.Perm b.labels := hab.2.2.2.2.2
  have hroles : ∀ r, r ∈ rolesFinal a.labels ↔ r ∈ rolesFinal b.labels :=
    fun r => mem_rolesFinal_perm hlab r
  refine ⟨?_, ?_, ?_, ?_⟩
  · intro r
    unfold applyNodeToState
    rw [findRole_foldl_upsert _ _ _ _ _ (nodup_rolesFinal a.labels),
      findRole_foldl_upsert _ _ _ _ _ (nodup_rolesFinal b.labels)]
    by_cases hr : r ∈ rolesFinal a.labels
    · rw [if_pos hr, if_pos ((hroles r).mp hr), hfind r, roleContrib_labels_irrel hab]
    · rw [if_neg hr, if_neg (fun hc => hr ((hroles r).mpr hc)), hfind r]
  · exact nodup_map_fst_foldl_upsert _ _ _ _ hnd₁
  · exact nodup_map_fst_foldl_upsert _ _ _ _ hnd₂
  · intro r
    unfold applyNodeToState
    rw [mem_map_fst_foldl_upsert, mem_map_fst_foldl_upsert]
    exact or_congr (hmem r) (hroles r)

theorem StateRel_liveFold (pods : List Pod) {ns₁ ns₂ : List Node}
    (h : NodesLabelPerm ns₁ ns₂) :
    ∀ st₁ st₂ : RoleMap, StateRel st₁ st₂ →
      StateRel
        (ns₁.foldl
          (fun st node =>
            applyNodeToState st node
              (pods.filter (fun p => p.nodeName == node.name))
              (pods.filter (fun p => p.nodeName == node.name && nonTerminated p)))
          st₁)
        (ns₂.foldl
          (fun st node =>
            applyNodeToState st node
              (pods.filter (fun p => p.nodeName == node.name))
              (pods.filter (fun p => p.nodeName == node.name && nonTerminated p)))
          st₂) := by
  induction h with
  | nil => intro st₁ st₂ h0; exact h0
  | @cons a b l₁ l₂ hab hrest ih =>
    intro st₁ st₂ h0
    rw [List.foldl_cons, List.foldl_cons]
    apply ih
    have hname : a.name = b.name := hab.1
    rw [hname]
    exact StateRel_applyNode _ _ hab h0

theorem sortedNames_eq {st₁ st₂ : RoleMap} (h : StateRel st₁ st₂) :
    (st₁.map Prod.fst).insertionSort (· ≤ ·) = (st₂.map Prod.fst).insertionSort (· ≤ ·) := by
  obtain ⟨_, hnd₁, hnd₂, hmem⟩ := h
  have hperm : (st₁.map Prod.fst).Perm (st₂.map Prod.fst) := by
    apply List.perm_of_nodup_nodup_toFinset_eq hnd₁ hnd₂
    ext x
    simp only [List.mem_toFinset]
    exact hmem x
  exact List.eq_of_perm_of_sorted
    ((List.perm_insertionSort _ _).trans (hperm.trans (List.perm_insertionSort _ _).symm))
    (List.sorted_insertionSort _ _) (List.sorted_insertionSort _ _)

theorem StateRel_rfl (st : RoleMap) (h : (st.map Prod.fst).Nodup) : StateRel st st :=
  ⟨fun _ => rfl, h, h, fun _ => Iff.rfl⟩

theorem foldl_accumClusterNode_perm {ns₁ ns₂ : List Node} (h : NodesLabelPerm ns₁ ns₂) :
    ∀ d : ClusterCapacityData, ns₁.foldl accumClusterNode d = ns₂.foldl accumClusterNode d := by
  induction h with
  | nil => intro d; rfl
  | @cons a b l₁ l₂ hab hrest ih =>
    intro d
    have he : accumClusterNode d a = accumClusterNode d b := by
      obtain ⟨hn, hc, hu, hcap, hal, hl⟩ := hab
      unfold accumClusterNode
      rw [hc, hu, hcap, hal]
    rw [List.foldl_cons, List.foldl_cons, he, ih]

theorem clusterRecord_perm {ns₁ ns₂ : List Node} (h : NodesLabelPerm ns₁ ns₂)
    (pods : List Pod) : clusterRecord ns₁ pods = clusterRecord ns₂ pods := by
  simp only [clusterRecord, clusterRunE, liveClusterEnv, itemsOf]
  rw [foldl_accumClusterNode_perm h]

theorem foldl_containerTotalsStep (cs : List ContainerResources) :
    ∀ s : NodePodTotals, cs.foldl containerTotalsStep s =
      { s with
        totalRequestsCPU := s.totalRequestsCPU + (cs.map (fun c => c.requestsCpu)).sum
        totalLimitssCPU := s.totalLimitssCPU + (cs.map (fun c => c.limitsCpu)).sum
        totalRequestsMemory :=
          s.totalRequestsMemory + (cs.map (fun c => c.requestsMemory)).sum
        totalLimitsMemory := s.totalLimitsMemory + (cs.map (fun c => c.limitsMemory)).sum } := by
  induction cs with
  | nil => intro s; simp
  | cons c cs ih =>
    intro s
    simp only [List.foldl_cons, containerTotalsStep, ih, List.map_cons, List.sum_cons]
    cases s
    simp only [NodePodTotals.mk.injEq, and_true, true_and]
    repeat' apply And.intro
    all_goals ring

theorem foldl_podContainers (pods : List Pod) :
    ∀ s : NodePodTotals,
      pods.foldl (fun s pod => pod.containers.foldl containerTotalsStep s) s =
        { s with
          totalRequestsCPU := s.totalRequestsCPU + sumRequestsCPU pods
          totalLimitssCPU := s.totalLimitssCPU + sumLimitsCPU pods
          totalRequestsMemory := s.totalRequestsMemory + sumRequestsMemory pods
          totalLimitsMemory := s.totalLimitsMemory + sumLimitsMemory pods } := by
  induction pods with
  | nil =>
    intro s
    simp [sumRequestsCPU, sumLimitsCPU, sumRequestsMemory, sumLimitsMemory]
  | cons p ps ih =>
    intro s
    rw [List.foldl_cons, foldl_containerTotalsStep, ih]
    cases s
    simp only [NodePodTotals.mk.injEq, sumRequestsCPU, sumLimitsCPU, sumRequestsMemory,
      sumLimitsMemory, List.map_cons, List.sum_cons, podRequestsCPU, podLimitsCPU,
      podRequestsMemory, podLimitsMemory, and_true, true_and]
    repeat' apply And.intro
    all_goals ring

theorem nodePodTotals_eq (nodePods ntPods : List Pod) :
    nodePodTotals nodePods ntPods =
      { totalPodCount := (nodePods.length : Int)
        nonTerminatedPodCount := (ntPods.length : Int)
        totalRequestsCPU := sumRequestsCPU ntPods
        totalLimitssCPU := sumLimitsCPU ntPods
        totalRequestsMemory := sumRequestsMemory ntPods
        totalLimitsMemory := sumLimitsMemory ntPods } := by
  unfold nodePodTotals
  rw [foldl_podContainers]
  simp

theorem accumRoleExisting_eq (d : ClusterCapacityData) (node : Node) (t : NodePodTotals) :
    accumRoleExisting d node t =
      { d with
        TotalNodeCount := d.TotalNodeCount + 1
        TotalReadyNodeCount := d.TotalReadyNodeCount + readyConditionCount node.conditions
        TotalUnreadyNodeCount :=
          (d.TotalNodeCount + 1) -
            (d.TotalReadyNodeCount + readyConditionCount node.conditions)
        TotalUnschedulableNodeCount :=
          d.TotalUnschedulableNodeCount + (if node.unschedulable then 1 else 0)
        TotalCapacityPods := d.TotalCapacityPods + node.capacity.pods
        TotalCapacityCPU := d.TotalCapacityCPU + node.capacity.cpu
        TotalCapacityMemory := d.TotalCapacityMemory + node.capacity.memory
        TotalAllocatablePods := d.TotalAllocatablePods + node.allocatable.pods
        TotalAllocatableCPU := d.TotalAllocatableCPU + node.allocatable.cpu
        TotalAllocatableMemory := d.TotalAllocatableMemory + node.allocatable.memory
        TotalRequestsCPU := d.TotalRequestsCPU + t.totalRequestsCPU
        TotalLimitsCPU := d.TotalLimitsCPU + t.totalLimitssCPU
        TotalRequestsMemory := d.TotalRequestsMemory + t.totalRequestsMemory
        TotalLimitsMemory := d.TotalLimitsMemory + t.totalLimitsMemory
        TotalPodCount := d.TotalPodCount + t.totalPodCount
        TotalNonTermPodCount := d.TotalNonTermPodCount + t.nonTerminatedPodCount } := by
  by_cases h : node.unschedulable <;>
    simp [accumRoleExisting, foldl_readyCondStep, h]

theorem freshRoleRecord_eq (node : Node) (t : NodePodTotals) :
    freshRoleRecord node t =
      { TotalNodeCount := 1
        TotalReadyNodeCount := if node.conditions.any isReadyTrue then 1 else 0
        TotalUnreadyNodeCount := 0
        TotalUnschedulableNodeCount := if node.unschedulable then 1 else 0
        TotalPodCount := t.totalPodCount
        TotalNonTermPodCount := t.nonTerminatedPodCount
        TotalAvailablePods := 0
        TotalCapacityPods := node.capacity.pods
        TotalCapacityCPU := node.capacity.cpu
        TotalCapacityMemory := node.capacity.memory
        TotalAllocatablePods := node.allocatable.pods
        TotalAllocatableCPU := node.allocatable.cpu
        TotalAllocatableMemory := node.allocatable.memory
        TotalAvailableCPU := 0
        TotalAvailableMemory := 0
        TotalRequestsCPU := t.totalRequestsCPU
        TotalRequestsMemory := t.totalRequestsMemory
        TotalLimitsCPU := t.totalLimitssCPU
        TotalLimitsMemory := t.totalLimitsMemory } := by
  by_cases h : node.unschedulable <;>
    by_cases h2 : node.conditions.any isReadyTrue <;>
      simp [freshRoleRecord, foldl_freshReadyStep, h, h2]

/-! ## Claims -/

/-- C1: the claim says every failed node or pod listing aborts report
generation with a wrapped error and nothing is rendered.  The code wraps the
node-listing error, but both pod-listing errors are assigned and never
checked, so a failed pod listing still produces a full report: on
`podFailClusterEnv` the cluster generator returns the same successful record
as a live cluster with no pods, and the node-role generator also returns
successfully. -/
theorem claim_c1_pod_listing_failure_not_fatal :
    clusterRunE podFailClusterEnv = .ok (clusterRecord [bareNode] []) ∧
    exceptIsOk (nodeRoleRunE podFailNodeRoleEnv) = true ∧
    clusterRunE nodesFailClusterEnv = .error ("failed to list nodes: boom") :=
  ⟨rfl, rfl, rfl⟩

/-- C2: the claim says every produced record satisfies
`TotalUnreadyNodeCount = TotalNodeCount - TotalReadyNodeCount`.  The cluster
record always does; but the node-role generator, on a role created by a node
with no Ready/True condition, leaves `TotalUnreadyNodeCount` at 0 while
`TotalNodeCount - TotalReadyNodeCount = 1`. -/
theorem claim_c2_unready_subtraction :
    (∀ (nodes : List Node) (pods : List Pod),
      (clusterRecord nodes pods).TotalUnreadyNodeCount =
        (clusterRecord nodes pods).TotalNodeCount -
          (clusterRecord nodes pods).TotalReadyNodeCount) ∧
    nodeRoleRunE (liveNodeRoleEnv [bareNode] []) =
      .ok (finalizeAll (liveNodeRoleState [bareNode] []),
        ((liveNodeRoleState [bareNode] []).map Prod.fst).insertionSort (· ≤ ·)) ∧
    (findRole "<none>" (finalizeAll (liveNodeRoleState [bareNode] []))).map
        (fun d => (d.TotalUnreadyNodeCount, d.TotalNodeCount - d.TotalReadyNodeCount)) =
      some (0, 1) := by
  refine ⟨?_, nodeRoleRunE_live _ _, ?_⟩
  · intro nodes pods
    rw [clusterRecord_eq]
    rfl
  · simp +decide [liveNodeRoleState, applyNodeToState, rolesFinal, rolesOfLabels, roleStep,
      insertRole, upsertRole, findRole, finalizeAll, finalizeRecord, freshRoleRecord,
      freshReadyStep, nodePodTotals, containerTotalsStep, bareNode, nonTerminated, goHasPrefix, goTrimPrefix,
      rolePrefix, isReadyTrue]

/-- C3: the claim says the cluster aggregator computes the derived available
fields before handing the record to the renderer.  It never assigns them:
they remain zero for every input, while on the spec's own scenario the
claimed values (allocatable − requested) are 5/2 CPU and 5Gi of memory. -/
theorem claim_c3_cluster_available_fields_not_computed :
    (∀ (nodes : List Node) (pods : List Pod),
      (clusterRecord nodes pods).TotalAvailablePods = 0 ∧
      (clusterRecord nodes pods).TotalAvailableCPU = 0 ∧
      (clusterRecord nodes pods).TotalAvailableMemory = 0) ∧
    (clusterRecord [scenarioNode] [scenarioPod]).TotalAvailableCPU = 0 ∧
    (clusterRecord [scenarioNode] [scenarioPod]).TotalAllocatableCPU -
      (clusterRecord [scenarioNode] [scenarioPod]).TotalRequestsCPU = 5/2 ∧
    (clusterRecord [scenarioNode] [scenarioPod]).TotalAllocatableMemory -
      (clusterRecord [scenarioNode] [scenarioPod]).TotalRequestsMemory = 5368709120 := by
  refine ⟨?_, ?_, ?_, ?_⟩
  · intro nodes pods
    rw [clusterRecord_eq]
    exact ⟨rfl, rfl, rfl⟩
  · rw [clusterRecord_eq]
    rfl
  · rw [clusterRecord_eq]
    simp +decide [specClusterRecord, sumAllocatableCPU, sumRequestsCPU, podRequestsCPU,
      scenarioNode, scenarioPod, nonTerminated]
    norm_num
  · rw [clusterRecord_eq]
    simp +decide [specClusterRecord, sumAllocatableMemory, sumRequestsMemory,
      podRequestsMemory, scenarioNode, scenarioPod, nonTerminated]
    norm_num

/-- C4: in the node-role finalization every role record's derived fields are
exact unclamped subtractions — available CPU/memory equal allocatable minus
requested, and available pods equal allocatable pods minus the non-terminated
pod count (allocatable pod quantities are integral) — and on the
overcommitted one-node cluster all three come out negative. -/
theorem claim_c4_role_available_unclamped :
    (∀ (env : NodeRoleEnv) (st : RoleMap) (names : List String) (r : String)
        (d : ClusterCapacityData),
      nodeRoleRunE env = .ok (st, names) → findRole r st = some d →
        d.TotalAvailableCPU = d.TotalAllocatableCPU - d.TotalRequestsCPU ∧
        d.TotalAvailableMemory = d.TotalAllocatableMemory - d.TotalRequestsMemory ∧
        (d.TotalAllocatablePods.den = 1 →
          (d.TotalAvailablePods : Quantity) =
            d.TotalAllocatablePods - (d.TotalNonTermPodCount : Quantity))) ∧
    (findRole "worker" overcommitState).map
        (fun d => (d.TotalAvailablePods, d.TotalAvailableCPU, d.TotalAvailableMemory)) =
      some (-1, -3, -3) := by
  constructor
  · intro env st names r d hrun hfind
    obtain ⟨nodes, st0, h1, h2, h3, h4⟩ := nodeRoleRunE_ok_inv hrun
    subst h3
    rw [findRole_finalizeAll] at hfind
    obtain ⟨d0, hd0, hd⟩ := Option.map_eq_some'.mp hfind
    subst hd
    refine ⟨rfl, rfl, ?_⟩
    intro hden
    have hden2 : d0.TotalAllocatablePods.den = 1 := hden
    show ((quantityValue d0.TotalAllocatablePods - d0.TotalNonTermPodCount : Int) : Quantity) =
      d0.TotalAllocatablePods - (d0.TotalNonTermPodCount : Quantity)
    rw [quantityValue_den_one hden2]
    push_cast
    rw [(Rat.den_eq_one_iff _).mp hden2]
  · simp +decide [overcommitState, liveNodeRoleState, applyNodeToState, rolesFinal,
      rolesOfLabels, roleStep, insertRole, upsertRole, findRole, finalizeAll,
      finalizeRecord, freshRoleRecord, freshReadyStep, nodePodTotals, containerTotalsStep, overcommitNode,
      overcommitPod, quantityValue, nonTerminated, goHasPrefix, goTrimPrefix, rolePrefix,
      isReadyTrue]
    norm_num

/-- C4 witness: the record of role `worker` on the overcommitted cluster
satisfies the derived-field equations. -/
theorem claim_c4_witness :
    overcommitRecord.TotalAvailableCPU =
      overcommitRecord.TotalAllocatableCPU - overcommitRecord.TotalRequestsCPU ∧
    (overcommitRecord.TotalAvailablePods : Quantity) =
      overcommitRecord.TotalAllocatablePods -
        (overcommitRecord.TotalNonTermPodCount : Quantity) := by
  have h := claim_c4_role_available_unclamped.1
    (liveNodeRoleEnv [overcommitNode] [overcommitPod, overcommitPod])
    overcommitState
    (((liveNodeRoleState [overcommitNode] [overcommitPod, overcommitPod]).map
      Prod.fst).insertionSort (· ≤ ·))
    "worker" overcommitRecord (nodeRoleRunE_live _ _) rfl
  refine ⟨h.1, h.2.2 ?_⟩
  simp +decide [overcommitRecord, overcommitState, liveNodeRoleState, applyNodeToState,
    rolesFinal, rolesOfLabels, roleStep, insertRole, upsertRole, findRole, finalizeAll,
    finalizeRecord, freshRoleRecord, freshReadyStep, nodePodTotals, containerTotalsStep, overcommitNode,
    overcommitPod, nonTerminated, goHasPrefix, goTrimPrefix, rolePrefix, isReadyTrue]

/-- C5: the derived role set of a node is exactly the non-empty suffixes of
label keys prefixed `node-role.kubernetes.io/` plus the non-empty value of a
`kubernetes.io/role` label, without duplicates; when no role is derived the
node carries exactly the sentinel role `<none>`. -/
theorem claim_c5_role_derivation (labels : List (String × String)) (x : String) :
    (rolesFinal labels).Nodup ∧
      (x ∈ rolesFinal labels ↔
        (specDerivedRole labels x ∨
          (x = "<none>" ∧ ∀ y, ¬ specDerivedRole labels y))) :=
  ⟨nodup_rolesFinal labels, mem_rolesFinal labels x⟩

/-- C6: processing one node adds the node's full, identical contribution —
node count, capacity, allocatable, both pod counts, and the request/limit
sums over its non-terminated pods — into the record of every role the node
belongs to (the delta does not depend on the role or on how many roles the
node has), and leaves every other role's record untouched; consequently, on
every successful run, the per-role `TotalNodeCount` summed over all role
records equals the sum over the nodes of the size of each node's role
set. -/
theorem claim_c6_multi_role_fanout :
    (∀ (st : RoleMap) (node : Node) (nodePods ntPods : List Pod) (r : String),
      (r ∈ rolesFinal node.labels →
        ∃ d', findRole r (applyNodeToState st node nodePods ntPods) = some d' ∧
          d'.TotalNodeCount = ((findRole r st).getD {}).TotalNodeCount + 1 ∧
          d'.TotalCapacityPods =
            ((findRole r st).getD {}).TotalCapacityPods + node.capacity.pods ∧
          d'.TotalCapacityCPU =
            ((findRole r st).getD {}).TotalCapacityCPU + node.capacity.cpu ∧
          d'.TotalCapacityMemory =
            ((findRole r st).getD {}).TotalCapacityMemory + node.capacity.memory ∧
          d'.TotalAllocatablePods =
            ((findRole r st).getD {}).TotalAllocatablePods + node.allocatable.pods ∧
          d'.TotalAllocatableCPU =
            ((findRole r st).getD {}).TotalAllocatableCPU + node.allocatable.cpu ∧
          d'.TotalAllocatableMemory =
            ((findRole r st).getD {}).TotalAllocatableMemory + node.allocatable.memory ∧
          d'.TotalPodCount =
            ((findRole r st).getD {}).TotalPodCount + (nodePods.length : Int) ∧
          d'.TotalNonTermPodCount =
            ((findRole r st).getD {}).TotalNonTermPodCount + (ntPods.length : Int) ∧
          d'.TotalRequestsCPU =
            ((findRole r st).getD {}).TotalRequestsCPU + sumRequestsCPU ntPods ∧
          d'.TotalRequestsMemory =
            ((findRole r st).getD {}).TotalRequestsMemory + sumRequestsMemory ntPods ∧
          d'.TotalLimitsCPU =
            ((findRole r st).getD {}).TotalLimitsCPU + sumLimitsCPU ntPods ∧
          d'.TotalLimitsMemory =
            ((findRole r st).getD {}).TotalLimitsMemory + sumLimitsMemory ntPods) ∧
      (r ∉ rolesFinal node.labels →
        findRole r (applyNodeToState st node nodePods ntPods) = findRole r st)) ∧
    (∀ (env : NodeRoleEnv) (nodes : List Node) (st : RoleMap) (names : List String),
      env.nodesList = .ok nodes → nodeRoleRunE env = .ok (st, names) →
        sumNodeCount st =
          (nodes.map (fun n => ((rolesFinal n.labels).length : Int))).sum) := by
  constructor
  · intro st node nodePods ntPods r
    constructor
    · intro hr
      unfold applyNodeToState
      rw [findRole_foldl_upsert _ _ _ _ _ (nodup_rolesFinal node.labels), if_pos hr]
      refine ⟨roleContrib node (nodePodTotals nodePods ntPods) (findRole r st), rfl, ?_⟩
      cases hb : findRole r st with
      | some d =>
        simp only [roleContrib, accumRoleExisting_eq, nodePodTotals_eq, Option.getD_some]
        simp
      | none =>
        simp only [roleContrib, freshRoleRecord_eq, nodePodTotals_eq, Option.getD_none]
        simp
    · intro hr
      unfold applyNodeToState
      rw [findRole_foldl_upsert _ _ _ _ _ (nodup_rolesFinal node.labels), if_neg hr]
  · intro env nodes st names h1 h2
    obtain ⟨nodes2, st0, h3, h4, h5, h6⟩ := nodeRoleRunE_ok_inv h2
    rw [h1] at h3
    injection h3 with h3
    subst h3
    subst h5
    rw [sumNodeCount_finalizeAll]
    have h7 := processNodes_ok_sum env nodes [] st0 h4
    simpa [sumNodeCount] using h7

/-- C6 witness: on the node carrying the `master` and `etcd` role labels,
the `master` record receives the full contribution, a role the node does not
carry is untouched, and the per-role node counts of the run sum to the
node's role-set size. -/
theorem claim_c6_witness :
    (∃ d', findRole "master" (applyNodeToState [] permNodeA [] []) = some d' ∧
      d'.TotalNodeCount = ((findRole "master" ([] : RoleMap)).getD {}).TotalNodeCount + 1 ∧
      d'.TotalCapacityCPU =
        ((findRole "master" ([] : RoleMap)).getD {}).TotalCapacityCPU +
          permNodeA.capacity.cpu ∧
      d'.TotalRequestsCPU =
        ((findRole "master" ([] : RoleMap)).getD {}).TotalRequestsCPU +
          sumRequestsCPU []) ∧
    findRole "worker" (applyNodeToState [] permNodeA [] []) =
      findRole "worker" ([] : RoleMap) ∧
    sumNodeCount (finalizeAll (liveNodeRoleState [permNodeA] [])) =
      (([permNodeA] : List Node).map (fun n => ((rolesFinal n.labels).length : Int))).sum := by
  refine ⟨?_, ?_, ?_⟩
  · obtain ⟨d', hfind, e1, e2, e3, e4, e5, e6, e7, e8, e9, e10, e11, e12, e13⟩ :=
      (claim_c6_multi_role_fanout.1 [] permNodeA [] [] "master").1 (by decide)
    exact ⟨d', hfind, e1, e3, e10⟩
  · exact (claim_c6_multi_role_fanout.1 [] permNodeA [] [] "worker").2 (by decide)
  · exact claim_c6_multi_role_fanout.2 (liveNodeRoleEnv [permNodeA] []) [permNodeA] _ _ rfl
      (nodeRoleRunE_live _ _)

/-- C7: whenever the node-role generator succeeds, the role-name list it
hands the renderer is sorted in ascending string order and is a permutation
of the keys of the role-record map. -/
theorem claim_c7_names_sorted (env : NodeRoleEnv) (st : RoleMap) (names : List String)
    (h : nodeRoleRunE env = .ok (st, names)) :
    List.Sorted (· ≤ ·) names ∧ names.Perm (st.map Prod.fst) := by
  obtain ⟨nodes, st0, h1, h2, h3, h4⟩ := nodeRoleRunE_ok_inv h
  subst h3
  subst h4
  refine ⟨List.sorted_insertionSort _ _, ?_⟩
  rw [map_fst_finalizeAll]
  exact List.perm_insertionSort _ _

/-- C7 witness: the sorted role names of a concrete two-role run. -/
theorem claim_c7_witness :
    List.Sorted (· ≤ ·)
        (((liveNodeRoleState [permNodeA] []).map Prod.fst).insertionSort (· ≤ ·)) ∧
      (((liveNodeRoleState [permNodeA] []).map Prod.fst).insertionSort (· ≤ ·)).Perm
        ((finalizeAll (liveNodeRoleState [permNodeA] [])).map Prod.fst) :=
  claim_c7_names_sorted (liveNodeRoleEnv [permNodeA] []) _ _ (nodeRoleRunE_live _ _)

/-- C8: on every live cluster state the cluster generator succeeds, its raw
pod count dominates its non-terminated pod count, and all four request/limit
sums are sums over the non-terminated pod set only. -/
theorem claim_c8_pod_counts (nodes : List Node) (pods : List Pod) :
    clusterRunE (liveClusterEnv nodes pods) = .ok (clusterRecord nodes pods) ∧
    (clusterRecord nodes pods).TotalNonTermPodCount ≤
      (clusterRecord nodes pods).TotalPodCount ∧
    (clusterRecord nodes pods).TotalRequestsCPU =
      sumRequestsCPU (pods.filter nonTerminated) ∧
    (clusterRecord nodes pods).TotalRequestsMemory =
      sumRequestsMemory (pods.filter nonTerminated) ∧
    (clusterRecord nodes pods).TotalLimitsCPU =
      sumLimitsCPU (pods.filter nonTerminated) ∧
    (clusterRecord nodes pods).TotalLimitsMemory =
      sumLimitsMemory (pods.filter nonTerminated) := by
  refine ⟨rfl, ?_, ?_, ?_, ?_, ?_⟩ <;> rw [clusterRecord_eq]
  · show ((pods.filter nonTerminated).length : Int) ≤ (pods.length : Int)
    exact_mod_cast List.length_filter_le nonTerminated pods
  · rfl
  · rfl
  · rfl
  · rfl

/-- C9: report generation is deterministic.  Presenting each node's label
set in any other order (the only observable nondeterminism of Go's map
iteration) leaves the cluster run, the sorted role-name list, and every
role's finalized record unchanged; two consecutive runs on the same state
are the reflexive instance. -/
theorem claim_c9_label_order_irrelevant (nodes₁ nodes₂ : List Node) (pods : List Pod)
    (h : NodesLabelPerm nodes₁ nodes₂) :
    clusterRunE (liveClusterEnv nodes₁ pods) = clusterRunE (liveClusterEnv nodes₂ pods) ∧
    nodeRoleRunE (liveNodeRoleEnv nodes₁ pods) =
      .ok (finalizeAll (liveNodeRoleState nodes₁ pods),
        ((liveNodeRoleState nodes₁ pods).map Prod.fst).insertionSort (· ≤ ·)) ∧
    nodeRoleRunE (liveNodeRoleEnv nodes₂ pods) =
      .ok (finalizeAll (liveNodeRoleState nodes₂ pods),
        ((liveNodeRoleState nodes₂ pods).map Prod.fst).insertionSort (· ≤ ·)) ∧
    ((liveNodeRoleState nodes₁ pods).map Prod.fst).insertionSort (· ≤ ·) =
      ((liveNodeRoleState nodes₂ pods).map Prod.fst).insertionSort (· ≤ ·) ∧
    (∀ r, findRole r (finalizeAll (liveNodeRoleState nodes₁ pods)) =
      findRole r (finalizeAll (liveNodeRoleState nodes₂ pods))) := by
  have hrel : StateRel (liveNodeRoleState nodes₁ pods) (liveNodeRoleState nodes₂ pods) := by
    unfold liveNodeRoleState
    exact StateRel_liveFold pods h [] [] (StateRel_rfl [] (by simp))
  refine ⟨?_, nodeRoleRunE_live _ _, nodeRoleRunE_live _ _, sortedNames_eq hrel, ?_⟩
  · rw [clusterRunE_live, clusterRunE_live, clusterRecord_perm h]
  · intro r
    rw [findRole_finalizeAll, findRole_finalizeAll, hrel.1 r]

/-- C9 witness: the node presented with its two role labels in either order
yields the same cluster run and the same sorted role names. -/
theorem claim_c9_witness :
    clusterRunE (liveClusterEnv [permNodeA] []) =
      clusterRunE (liveClusterEnv [permNodeB] []) ∧
    ((liveNodeRoleState [permNodeA] []).map Prod.fst).insertionSort (· ≤ ·) =
      ((liveNodeRoleState [permNodeB] []).map Prod.fst).insertionSort (· ≤ ·) := by
  have h := claim_c9_label_order_irrelevant [permNodeA] [permNodeB] []
    (List.Forall₂.cons ⟨rfl, rfl, rfl, rfl, rfl, by decide⟩ List.Forall₂.nil)
  exact ⟨h.1, h.2.2.2.1⟩

/-- C10: the cluster generator increments `TotalReadyNodeCount` once per
Ready/True status condition, not once per node: it always equals the sum
over the nodes of their Ready/True condition counts, and a node carrying two
such conditions makes it exceed `TotalNodeCount`. -/
theorem claim_c10_ready_counted_per_condition :
    (∀ (nodes : List Node) (pods : List Pod),
      (clusterRecord nodes pods).TotalReadyNodeCount = sumReadyCount nodes) ∧
    (clusterRecord [doublyReadyNode] []).TotalNodeCount <
      (clusterRecord [doublyReadyNode] []).TotalReadyNodeCount := by
  constructor
  · intro nodes pods
    rw [clusterRecord_eq]
    rfl
  · rw [clusterRecord_eq]
    simp +decide [specClusterRecord, sumReadyCount, readyConditionCount, doublyReadyNode,
      isReadyTrue]

end KubeSize
